import Mathlib

/-!
Shallow embedding of the segmented HTTP downloader `hs-files-dl`
(`src/hs_dl/main.py`, `src/hs_dl/request.py`).

The pure decision logic of the program is translated here:
  * the range partitioning of `HSDownloader.start_download`,
  * the header probing of `HSDownloader.get_head_headers`,
    `HSDownloader.accept_ranges`, `HSDownloader.content_length`,
  * the Range-header construction of `HSDownloader.get_content`,
  * the status-code allow-list of `Request.__post_init__`,
    the status check of `Request._request` and the retry loop of
    `Request.request` / `Request.retry_handler`,
  * the fail-fast orchestration of `start_download` / `start`.

Network I/O is modelled by passing the observable outcome of each
transport interaction (response headers, status codes, body bytes,
failures) as explicit arguments to the embedded functions.
-/

set_option autoImplicit false

namespace HsDl

/-- One planned segment, as stored in `args_dict` by
`HSDownloader.start_download` (main.py:189-200): an index, a start
offset `s`, and an inclusive end offset `e`, where `e = None` in
Python is modelled as `none` (the not-accept-ranges case). -/
structure RangeSpec where
  index : Nat
  s : Nat
  e : Option Nat
  deriving DecidableEq, Repr

/-- The loop body of main.py:191-194 restricted to the accept-ranges
case, producing the raw `(index, s, e)` triples: the first block starts
at `s`; each later block starts one past the previous block's end; a
non-final block ends at `start + blockSize`; the final block ends at
`contentLength`. The third argument is the number of blocks still to
produce (`block_number - index`). -/
def buildRanges (blockSize contentLength : Nat) : Nat → Nat → Nat → List (Nat × Nat × Nat)
  | _, _, 0 => []
  | i, s, 1 => [(i, s, contentLength)]
  | i, s, n + 2 => (i, s, s + blockSize) :: buildRanges blockSize contentLength (i + 1) (s + blockSize + 1) (n + 1)

/-- `self.block_number` (main.py:83). -/
def block_number : Nat := 32

/-- `self.target_size = self.block_number * 10 * 1024 * 1024` (main.py:84). -/
def target_size : Nat := block_number * 10 * 1024 * 1024

/-- The `block_size` local of main.py:176-183: `int(content_length /
32)` in the small regime (`content_length <= target_size`),
`10 * 1024 * 1024` in the large one. -/
def partition_block_size (contentLength : Nat) : Nat :=
  if contentLength ≤ target_size then contentLength / block_number
  else 10 * 1024 * 1024

/-- The `block_number` local of main.py:176-183: fixed at 32 in the
small regime, `math.ceil(content_length / block_size)` in the large
one. -/
def partition_block_number (contentLength : Nat) : Nat :=
  if contentLength ≤ target_size then block_number
  else (contentLength + (10 * 1024 * 1024) - 1) / (10 * 1024 * 1024)

/-- The two regime overrides of main.py:185-187 followed by the range
loop of main.py:189-200. -/
def start_download_partition (contentLength : Nat) (acceptRanges : Bool) : List RangeSpec :=
  let blockSize := if ¬ acceptRanges ∨ contentLength = 0 then 0 else partition_block_size contentLength
  let blockNumber := if ¬ acceptRanges ∨ contentLength = 0 then 1 else partition_block_number contentLength
  (buildRanges blockSize contentLength 0 0 blockNumber).map
    (fun t => ⟨t.1, t.2.1, if acceptRanges then some t.2.2 else none⟩)

/-- `HSDownloader.get_head_headers` (main.py:211-229): a successful HEAD
probe yields the response headers; a `RequestException` is caught and
the stored headers become the empty dict. -/
inductive ProbeResult where
  | ok (headers : List (String × String))
  | failed
  deriving DecidableEq

/-- The value stored in `self._head_headers` by `get_head_headers`. -/
def get_head_headers : ProbeResult → List (String × String)
  | .ok hs => hs
  | .failed => []

/-- `HSDownloader.accept_ranges` (main.py:231-237):
`self._head_headers.get('Accept-Ranges') is not None` — the header's
presence alone decides, its value is never inspected. -/
def accept_ranges (headers : List (String × String)) : Bool :=
  (headers.lookup ("Accept-Ranges")).isSome

/-- `HSDownloader.content_length` (main.py:239-245):
`int(self._head_headers.get('Content-Length', 0))`, defaulting to 0. -/
def content_length (headers : List (String × String)) : Nat :=
  match headers.lookup ("Content-Length") with
  | none => 0
  | some v => v.toNat?.getD 0

/-- The Range-header decision of `HSDownloader.get_content`
(main.py:265-268): `if end:` adds `Range: bytes={start}-{end}` — a
Python-falsy `end` (`None` or `0`) sends no Range header. The result is
the `(start, end)` pair of the header, or `none` when no header is
sent. -/
def get_content_range_header (sp : RangeSpec) : Option (Nat × Nat) :=
  match sp.e with
  | none => none
  | some e => if e = 0 then none else some (sp.s, e)

/-- The bytes of a resource `r` lying inside the inclusive span
`[sp.s, sp.e]` of a `RangeSpec` (the whole resource when `e` is
absent): what a range-respecting server hands the fetcher. -/
def spanBytes (r : List Nat) (sp : RangeSpec) : List Nat :=
  match sp.e with
  | none => r
  | some e => (r.drop sp.s).take (e + 1 - sp.s)

/-- An HTTP response as the embedded `Request` code observes it:
only the status code matters to `Request._request`'s validation. -/
structure HttpResponse where
  status : Nat
  deriving DecidableEq, Repr

/-- The exceptions one attempt of `Request._request` can raise: a
`RequestStateException(code)` (request.py:157-158) or a transport-level
httpx error. -/
inductive ReqError where
  | state (code : Nat)
  | transport
  deriving DecidableEq, Repr

/-- The allow-list set up by `Request.__post_init__`
(request.py:71-76): an empty caller list is replaced by
`list(range(200, 300))`; a non-empty caller list is extended with that
range. -/
def post_init_allow_codes (allow_codes : List Nat) : List Nat :=
  let allow := List.range' 200 100
  if allow_codes.isEmpty then allow else allow_codes ++ allow

/-- The status validation of `Request._request` (request.py:156-159):
a status inside the allow-list returns the response, anything else
raises `RequestStateException(status)`. -/
def request_validate (allow : List Nat) (resp : HttpResponse) : Except ReqError HttpResponse :=
  if resp.status ∈ allow then .ok resp else .error (.state resp.status)

/-- The wait applied between attempts by `Request.request`
(request.py:116-119): `wait_fixed(delay) + wait_random(0, 2)` when
`retries_delay` is truthy, else `wait_fixed(0)`; `jitter` is the value
the random component would sample. -/
def retry_wait (retries_delay : Nat) (jitter : Nat) : Nat :=
  if retries_delay = 0 then 0 else retries_delay + jitter

/-- The outcome of `Request.request` as the caller sees it: a
response, the terminal `RequestException` raised by `retry_handler`
after the last attempt (request.py:101-103), or — only on the
no-retry path `retrys_count < 1` (request.py:112-113) — the raw
attempt exception. -/
inductive ReqOutcome (α : Type) where
  | ok (a : α)
  | requestException
  | raw (e : ReqError)
  deriving DecidableEq, Repr

/-- The retry loop `AsyncRetrying(stop=stop_after_attempt(retrys_count),
after=retry_handler, ...)` of `Request.request` (request.py:122-130)
together with `Request.retry_handler` (request.py:85-105): attempt `n`
runs; on success its value is returned; on failure `retry_handler`
raises the terminal `RequestException` when `n = retrys_count` and
otherwise the next attempt runs. `attempt n` is the outcome of the
`n`-th call of `_request` (attempts are numbered from 1); the first
component of the result counts the attempts performed. The last
argument is fuel, `retrys_count - n + 1` at every call. -/
def retryFrom {α : Type} (retrys_count : Nat) (attempt : Nat → Except ReqError α) : Nat → Nat → Nat × Except Unit α
  | _, 0 => (0, .error ())
  | n, fuel + 1 =>
    match attempt n with
    | .ok a => (1, .ok a)
    | .error _ =>
      if n = retrys_count then (1, .error ())
      else
        let r := retryFrom retrys_count attempt (n + 1) fuel
        (r.1 + 1, r.2)

/-- `Request.request` (request.py:107-130): with `retrys_count < 1`
a single unwrapped `_request` call whose exception propagates raw;
otherwise the retry loop starting at attempt 1. Returns the number of
attempts performed and the outcome. -/
def Request.request {α : Type} (retrys_count : Nat) (attempt : Nat → Except ReqError α) : Nat × ReqOutcome α :=
  if retrys_count < 1 then
    match attempt 1 with
    | .ok a => (1, .ok a)
    | .error e => (1, .raw e)
  else
    let r := retryFrom retrys_count attempt 1 retrys_count
    (r.1, match r.2 with | .ok a => .ok a | .error () => .requestException)

/-- What one fetch task of `HSDownloader.get_content` observes after
its `req.request(stream=True)` and body iteration (main.py:274-281):
either the accumulated bytes, or the `RequestException` from an
exhausted retry budget. -/
inductive FetchResult where
  | content (bs : List Nat)
  | exhausted
  deriving DecidableEq, Repr

/-- One completed segment dict `{'index': index, 'content': content}`
(main.py:289). -/
structure Segment where
  index : Nat
  content : List Nat
  deriving DecidableEq, Repr

/-- `sorted(result, key=itemgetter('index'))` (main.py:209): insertion
of one segment into a list sorted ascending by `index`. -/
def insertByIndex (x : Segment) : List Segment → List Segment
  | [] => [x]
  | y :: ys => if x.index ≤ y.index then x :: y :: ys else y :: insertByIndex x ys

/-- `sorted(result, key=itemgetter('index'))` (main.py:209). -/
def sortByIndex : List Segment → List Segment
  | [] => []
  | x :: xs => insertByIndex x (sortByIndex xs)

/-- `HSDownloader.get_content` (main.py:255-298): a successful fetch
returns its segment; a `RequestException` triggers
`network_error_exit`, i.e. `os._exit(1)` (main.py:291-298), modelled
as `Except.error 1` carrying the process exit status. -/
def get_content (sp : RangeSpec) (fr : FetchResult) : Except Nat Segment :=
  match fr with
  | .content bs => .ok ⟨sp.index, bs⟩
  | .exhausted => .error 1

/-- The fan-out and collection of `HSDownloader.start_download`
(main.py:202-209): every task whose fetch exhausts its retries calls
`os._exit(1)`, killing the whole process (no result list exists);
otherwise the gathered segments are returned sorted by index. -/
def start_download_run (specs : List RangeSpec) (fetch : RangeSpec → FetchResult) : Except Nat (List Segment) :=
  if specs.any (fun sp => fetch sp = FetchResult.exhausted) then .error 1
  else .ok (sortByIndex (specs.map (fun sp => ⟨sp.index, match fetch sp with | .content bs => bs | .exhausted => []⟩)))

/-- `HSDownloader.start` after the probe (main.py:148-159): run
`start_download` over the partition and, only on success, write
`b''.join([d['content'] for d in result])` to the destination file.
The result is the written file's bytes, or the process exit status. -/
def hs_start (contentLength : Nat) (acceptRanges : Bool) (fetch : RangeSpec → FetchResult) : Except Nat (List Nat) :=
  (start_download_run (start_download_partition contentLength acceptRanges) fetch).map
    (fun segs => (segs.map Segment.content).flatten)

/-- The whole pipeline of `HSDownloader.start` (main.py:130-159):
probe via `get_head_headers`, derive `accept_ranges` and
`content_length` from the stored headers, partition, fetch, save. -/
def full_run (pr : ProbeResult) (fetch : RangeSpec → FetchResult) : Except Nat (List Nat) :=
  let hh := get_head_headers pr
  hs_start (content_length hh) (accept_ranges hh) fetch

/-! ### Structural lemmas about the range loop -/

theorem buildRanges_succ_cons (bs cl n i s : Nat) :
    ∃ e tl, buildRanges bs cl i s (n + 1) = (i, s, e) :: tl := by
  cases n with
  | zero => exact ⟨cl, [], rfl⟩
  | succ m => exact ⟨s + bs, _, rfl⟩

theorem buildRanges_length (bs cl : Nat) : ∀ n i s, (buildRanges bs cl i s n).length = n
  | 0, _, _ => rfl
  | 1, _, _ => rfl
  | n + 2, i, s => by
      simp [buildRanges, buildRanges_length bs cl (n + 1) (i + 1) (s + bs + 1)]

theorem buildRanges_chain_index (bs cl : Nat) :
    ∀ n i s, List.Chain' (fun a b : Nat × Nat × Nat => a.1 < b.1) (buildRanges bs cl i s n)
  | 0, _, _ => List.chain'_nil
  | 1, _, _ => List.chain'_singleton _
  | n + 2, i, s => by
      have h := buildRanges_chain_index bs cl (n + 1) (i + 1) (s + bs + 1)
      obtain ⟨e, tl, htl⟩ := buildRanges_succ_cons bs cl n (i + 1) (s + bs + 1)
      rw [show buildRanges bs cl i s (n + 2) =
            (i, s, s + bs) :: buildRanges bs cl (i + 1) (s + bs + 1) (n + 1) from rfl, htl]
      rw [htl] at h
      exact List.chain'_cons.mpr ⟨Nat.lt_succ_self i, h⟩

theorem buildRanges_chain_contig (bs cl : Nat) :
    ∀ n i s, List.Chain' (fun a b : Nat × Nat × Nat => b.2.1 = a.2.2 + 1) (buildRanges bs cl i s n)
  | 0, _, _ => List.chain'_nil
  | 1, _, _ => List.chain'_singleton _
  | n + 2, i, s => by
      have h := buildRanges_chain_contig bs cl (n + 1) (i + 1) (s + bs + 1)
      obtain ⟨e, tl, htl⟩ := buildRanges_succ_cons bs cl n (i + 1) (s + bs + 1)
      rw [show buildRanges bs cl i s (n + 2) =
            (i, s, s + bs) :: buildRanges bs cl (i + 1) (s + bs + 1) (n + 1) from rfl, htl]
      rw [htl] at h
      exact List.chain'_cons.mpr ⟨rfl, h⟩

theorem buildRanges_getLast? (bs cl : Nat) :
    ∀ n i s, 1 ≤ n →
      ∃ p : Nat × Nat × Nat, (buildRanges bs cl i s n).getLast? = some p ∧ p.2.2 = cl
  | 0, _, _, h => absurd h (by decide)
  | 1, i, s, _ => ⟨(i, s, cl), rfl, rfl⟩
  | n + 2, i, s, _ => by
      obtain ⟨p, hp, he⟩ :=
        buildRanges_getLast? bs cl (n + 1) (i + 1) (s + bs + 1) (Nat.le_add_left 1 n)
      refine ⟨p, ?_, he⟩
      obtain ⟨e, tl, htl⟩ := buildRanges_succ_cons bs cl n (i + 1) (s + bs + 1)
      rw [show buildRanges bs cl i s (n + 2) =
            (i, s, s + bs) :: buildRanges bs cl (i + 1) (s + bs + 1) (n + 1) from rfl]
      rw [htl] at hp ⊢
      rw [List.getLast?_cons_cons]
      exact hp

theorem buildRanges_dropLast (bs cl : Nat) :
    ∀ n i s, ∀ t ∈ (buildRanges bs cl i s n).dropLast, t.2.2 = t.2.1 + bs
  | 0, _, _ => by intro t ht; simp [buildRanges] at ht
  | 1, _, _ => by intro t ht; simp [buildRanges] at ht
  | n + 2, i, s => by
      intro t ht
      obtain ⟨e, tl, htl⟩ := buildRanges_succ_cons bs cl n (i + 1) (s + bs + 1)
      rw [show buildRanges bs cl i s (n + 2) =
            (i, s, s + bs) :: buildRanges bs cl (i + 1) (s + bs + 1) (n + 1) from rfl,
          htl, List.dropLast_cons₂, List.mem_cons] at ht
      rcases ht with rfl | ht
      · rfl
      · rw [← htl] at ht
        exact buildRanges_dropLast bs cl (n + 1) (i + 1) (s + bs + 1) t ht

theorem buildRanges_flatten (r : List Nat) (bs cl : Nat) (hcl : r.length ≤ cl + 1) :
    ∀ n i s, 1 ≤ n →
      ((buildRanges bs cl i s n).map
        (fun t => (r.drop t.2.1).take (t.2.2 + 1 - t.2.1))).flatten = r.drop s
  | 0, _, _, h => absurd h (by decide)
  | 1, i, s, _ => by
      simp only [buildRanges, List.map_cons, List.map_nil, List.flatten_cons,
        List.flatten_nil, List.append_nil]
      apply List.take_of_length_le
      rw [List.length_drop]
      omega
  | n + 2, i, s, _ => by
      have ih := buildRanges_flatten r bs cl hcl (n + 1) (i + 1) (s + bs + 1) (Nat.le_add_left 1 n)
      simp only [buildRanges, List.map_cons, List.flatten_cons, ih]
      have h1 : s + bs + 1 - s = bs + 1 := by omega
      have h2 : r.drop (s + bs + 1) = (r.drop s).drop (bs + 1) := by
        rw [List.drop_drop]
        rw [Nat.add_assoc]
      rw [h1, h2, List.take_append_drop]

theorem partition_block_number_pos (cl : Nat) (h : 0 < cl) : 1 ≤ partition_block_number cl := by
  rw [partition_block_number]
  split
  · decide
  · rw [Nat.one_le_div_iff (by decide)]
    omega

/-- With ranges accepted and a positive length, the partition is the
mapped range loop over the regime-chosen block size and count. -/
theorem start_download_partition_pos (cl : Nat) (h : 0 < cl) :
    start_download_partition cl true =
      (buildRanges (partition_block_size cl) cl 0 0 (partition_block_number cl)).map
        (fun t => ⟨t.1, t.2.1, some t.2.2⟩) := by
  rw [start_download_partition]
  simp [h.ne']

/-- Without range support the partition is a single unbounded spec,
whatever the length. -/
theorem start_download_partition_noranges (cl : Nat) :
    start_download_partition cl false = [⟨0, 0, none⟩] := by
  rw [start_download_partition]
  simp [buildRanges]

/-! ### Lemmas about the index sort of main.py:209 -/

theorem insertByIndex_of_lt_head (x : Segment) (l : List Segment)
    (h : ∀ y, l.head? = some y → x.index ≤ y.index) : insertByIndex x l = x :: l := by
  cases l with
  | nil => rfl
  | cons y ys => simp [insertByIndex, h y rfl]

theorem sortByIndex_of_chain :
    ∀ l : List Segment, List.Chain' (fun a b => a.index < b.index) l → sortByIndex l = l
  | [], _ => rfl
  | x :: xs, h => by
      have hx := List.chain'_cons'.mp h
      rw [sortByIndex, sortByIndex_of_chain xs hx.2]
      refine insertByIndex_of_lt_head x xs (fun y hy => ?_)
      exact Nat.le_of_lt (hx.1 y hy)

/-- Every partition the code produces has strictly increasing indices. -/
theorem partition_chain_index (cl : Nat) (b : Bool) :
    List.Chain' (fun x y : RangeSpec => x.index < y.index) (start_download_partition cl b) := by
  rw [start_download_partition]
  refine (List.chain'_map _).mpr ?_
  exact buildRanges_chain_index _ _ _ _ _

/-! ### Lemmas about the retry loop -/

theorem retryFrom_count_le {α : Type} (rc : Nat) (attempt : Nat → Except ReqError α) :
    ∀ fuel n, (retryFrom rc attempt n fuel).1 ≤ fuel
  | 0, _ => Nat.le_refl 0
  | fuel + 1, n => by
      rw [retryFrom]
      cases attempt n with
      | ok a => exact Nat.le_add_left 1 fuel
      | error e =>
          by_cases h : n = rc
          · simp only [h, if_pos rfl]
            exact Nat.le_add_left 1 fuel
          · simp only [if_neg h]
            exact Nat.succ_le_succ (retryFrom_count_le rc attempt fuel (n + 1))

theorem retryFrom_all_fail {α : Type} (rc : Nat) (attempt : Nat → Except ReqError α)
    (hfail : ∀ m, ∃ e, attempt m = Except.error e) :
    ∀ fuel n, 1 ≤ fuel → n + fuel = rc + 1 →
      retryFrom rc attempt n fuel = (fuel, Except.error ())
  | 0, _, hf, _ => absurd hf (by decide)
  | fuel + 1, n, _, hsum => by
      obtain ⟨e, he⟩ := hfail n
      rw [retryFrom, he]
      cases fuel with
      | zero =>
          have : n = rc := by omega
          simp [this]
      | succ f =>
          have hne : n ≠ rc := by omega
          have ih := retryFrom_all_fail rc attempt hfail (f + 1) (n + 1)
            (Nat.le_add_left 1 f) (by omega)
          simp only [if_neg hne, ih]

theorem retryFrom_skip_to_ok {α : Type} (rc : Nat) (attempt : Nat → Except ReqError α)
    (n : Nat) (a : α) (hok : attempt (n + 1) = Except.ok a)
    (hn : n + 1 ≤ rc) :
    ∀ fuel n₀, n₀ + fuel = rc + 1 → n₀ ≤ n + 1 →
      (∀ m, n₀ ≤ m → m ≤ n → ∃ e, attempt m = Except.error e) →
      (retryFrom rc attempt n₀ fuel).2 = Except.ok a
  | 0, n₀, hsum, hle, _ => by omega
  | fuel + 1, n₀, hsum, hle, hfail => by
      by_cases h0 : n₀ = n + 1
      · subst h0
        rw [retryFrom, hok]
      · obtain ⟨e, he⟩ := hfail n₀ (Nat.le_refl n₀) (by omega)
        rw [retryFrom, he]
        have hne : n₀ ≠ rc := by omega
        simp only [if_neg hne]
        exact retryFrom_skip_to_ok rc attempt n a hok hn fuel (n₀ + 1) (by omega) (by omega)
          (fun m hm1 hm2 => hfail m (by omega) hm2)

/-! ### Claim theorems -/

/-- C9 counterexample: a response carrying `Accept-Ranges: none` DOES
enable ranged download in `HSDownloader.accept_ranges` (main.py:237
tests only `is not None`), contradicting the claim that a `none` value
leaves `acceptsRanges` false. -/
theorem C9_counterexample : accept_ranges [("Accept-Ranges", "none")] = true := by decide

/-- C9 (amended): `accept_ranges` is true exactly when an
`Accept-Ranges` header is present, regardless of its value — even the
value `none` enables ranged download. -/
theorem C9_theorem (hs : List (String × String)) :
    accept_ranges hs = true ↔ ∃ v, ("Accept-Ranges", v) ∈ hs := by
  induction hs with
  | nil => simp [accept_ranges]
  | cons p t ih =>
      obtain ⟨k, v⟩ := p
      by_cases hk : "Accept-Ranges" = k
      · subst hk
        simp [accept_ranges, List.lookup]
      · have hbeq : ("Accept-Ranges" == k) = false := beq_eq_false_iff_ne.mpr hk
        simp only [accept_ranges, List.lookup, hbeq, List.mem_cons, Prod.mk.injEq] at ih ⊢
        rw [ih]
        constructor
        · rintro ⟨w, hw⟩
          exact ⟨w, Or.inr hw⟩
        · rintro ⟨w, ⟨hw1, _⟩ | hw⟩
          · exact absurd hw1 hk
          · exact ⟨w, hw⟩

/-- C10: after `Request.__post_init__` (request.py:71-76) the
allow-list always contains every status code in 200–299, and every
caller-supplied code survives: the 200–299 range is appended, never
substituted for a non-empty caller list. -/
theorem C10_theorem (ac : List Nat) (c : Nat) (h1 : 200 ≤ c) (h2 : c < 300) :
    c ∈ post_init_allow_codes ac ∧ ∀ x ∈ ac, x ∈ post_init_allow_codes ac := by
  have hmem : c ∈ List.range' 200 100 := by
    rw [List.mem_range'_1]
    exact ⟨by omega, by omega⟩
  constructor
  · rw [post_init_allow_codes]
    split
    · exact hmem
    · exact List.mem_append_right _ hmem
  · intro x hx
    rw [post_init_allow_codes]
    split
    · rename_i hemp
      rw [List.isEmpty_iff] at hemp
      rw [hemp] at hx
      simp at hx
    · exact List.mem_append_left _ hx

/-- C10 witness: code 250 is allowed despite a caller list of `[404]`,
and 404 itself survives. -/
theorem C10_witness :
    250 ∈ post_init_allow_codes [404] ∧ ∀ x ∈ [404], x ∈ post_init_allow_codes [404] :=
  C10_theorem [404] 250 (by decide) (by decide)

/-- C8 counterexample: with `acceptsRanges = true` and `totalSize = 0`
the single RangeSpec carries `e = Some 0`, not an absent end (the
Python loop stores `e = content_length = 0` and `accept_ranges` is
true, main.py:193-194). -/
theorem C8_counterexample :
    start_download_partition 0 true = [⟨0, 0, some 0⟩] ∧
      start_download_partition 0 true ≠ [⟨0, 0, none⟩] := by
  constructor
  · rfl
  · decide

/-- C8 (amended): whenever ranges are unsupported or the size is 0 the
partition is exactly one whole-resource RangeSpec starting at 0; its
end is absent when `acceptsRanges = false` and `Some 0` when
`acceptsRanges = true` with `totalSize = 0`; in either case
`get_content` sends no Range header (Python treats both `None` and `0`
as falsy at main.py:265). -/
theorem C8_theorem (cl : Nat) (b : Bool) (h : b = false ∨ cl = 0) :
    start_download_partition cl b = [⟨0, 0, if b then some 0 else none⟩] ∧
      get_content_range_header ⟨0, 0, if b then some 0 else none⟩ = none := by
  rcases h with rfl | rfl
  · rw [start_download_partition_noranges]
    exact ⟨rfl, rfl⟩
  · cases b with
    | false => rw [start_download_partition_noranges]; exact ⟨rfl, rfl⟩
    | true => exact ⟨rfl, rfl⟩

/-- C8 witness: a 5-byte resource without range support yields the
single unbounded RangeSpec and no Range header. -/
theorem C8_witness :
    start_download_partition 5 false = [⟨0, 0, none⟩] ∧
      get_content_range_header ⟨0, 0, none⟩ = none :=
  C8_theorem 5 false (Or.inl rfl)

/-- C5: if any fetch task exhausts its retries, `get_content` runs
`network_error_exit` and the process dies with exit status 1 before
`save_file` can run: the download result is the exit, never a written
file. -/
theorem C5_theorem (cl : Nat) (b : Bool) (fetch : RangeSpec → FetchResult)
    (h : ∃ sp ∈ start_download_partition cl b, fetch sp = FetchResult.exhausted) :
    hs_start cl b fetch = Except.error 1 ∧ ∀ bs, hs_start cl b fetch ≠ Except.ok bs := by
  have hany : (start_download_partition cl b).any
      (fun sp => fetch sp = FetchResult.exhausted) = true := by
    rw [List.any_eq_true]
    obtain ⟨sp, hsp, hex⟩ := h
    exact ⟨sp, hsp, by simp [hex]⟩
  have : hs_start cl b fetch = Except.error 1 := by
    rw [hs_start, start_download_run, if_pos hany]
    rfl
  exact ⟨this, fun bs hbs => by rw [this] at hbs; exact Except.noConfusion hbs⟩

/-- C5 witness: a no-range download whose single fetch is exhausted
exits with status 1. -/
theorem C5_witness :
    hs_start 9 false (fun _ => FetchResult.exhausted) = Except.error 1 ∧
      ∀ bs, hs_start 9 false (fun _ => FetchResult.exhausted) ≠ Except.ok bs :=
  C5_theorem 9 false (fun _ => FetchResult.exhausted)
    ⟨⟨0, 0, none⟩, by rw [start_download_partition_noranges]; exact List.mem_singleton.mpr rfl, rfl⟩

/-- C7 counterexample: when the HEAD probe fails, `get_head_headers`
swallows the `RequestException` and stores empty headers
(main.py:219-220); the download then proceeds as a single unranged
fetch and saves the file — it does NOT abort with a non-zero exit. -/
theorem C7_counterexample :
    full_run ProbeResult.failed (fun _ => FetchResult.content [7]) = Except.ok [7] := by rfl

/-- C7 (amended): a failed probe yields empty stored headers, hence
`acceptsRanges = false` and `totalSize = 0`; the code falls back to
exactly one unbounded RangeSpec fetched without a Range header (so no
ranged download is attempted), succeeding or failing with that single
fetch rather than aborting up front. -/
theorem C7_theorem (fetch : RangeSpec → FetchResult) :
    get_head_headers ProbeResult.failed = [] ∧
      accept_ranges [] = false ∧
      content_length [] = 0 ∧
      start_download_partition 0 false = [⟨0, 0, none⟩] ∧
      get_content_range_header ⟨0, 0, none⟩ = none ∧
      (∀ bs, fetch ⟨0, 0, none⟩ = FetchResult.content bs →
        full_run ProbeResult.failed fetch = Except.ok bs) ∧
      (fetch ⟨0, 0, none⟩ = FetchResult.exhausted →
        full_run ProbeResult.failed fetch = Except.error 1) := by
  refine ⟨rfl, rfl, rfl, rfl, rfl, ?_, ?_⟩
  · intro bs hbs
    rw [full_run, hs_start]
    have hspecs : start_download_partition (content_length (get_head_headers ProbeResult.failed))
        (accept_ranges (get_head_headers ProbeResult.failed)) = [⟨0, 0, none⟩] := rfl
    rw [hspecs, start_download_run]
    rw [show ([⟨0, 0, none⟩] : List RangeSpec).any
        (fun sp => fetch sp = FetchResult.exhausted) = false by simp [hbs]]
    simp [sortByIndex, insertByIndex, hbs, Except.map]
  · intro hex
    rw [full_run, hs_start]
    have hspecs : start_download_partition (content_length (get_head_headers ProbeResult.failed))
        (accept_ranges (get_head_headers ProbeResult.failed)) = [⟨0, 0, none⟩] := rfl
    rw [hspecs, start_download_run]
    rw [show ([⟨0, 0, none⟩] : List RangeSpec).any
        (fun sp => fetch sp = FetchResult.exhausted) = true by simp [hex]]
    rfl

/-- C7 witness: a concrete fallback run whose single fetch returns
three bytes ends as a successfully saved file. -/
theorem C7_witness :
    full_run ProbeResult.failed (fun _ => FetchResult.content [1, 2, 3]) = Except.ok [1, 2, 3] :=
  (C7_theorem (fun _ => FetchResult.content [1, 2, 3])).2.2.2.2.2.1 [1, 2, 3] rfl

/-- C1 counterexample: at `totalSize = 32` (with ranges accepted) the
final RangeSpec's end is `32 = totalSize`, not `totalSize - 1 = 31`:
main.py:193 sets the last `e` to `self.content_length`, one past the
last byte. -/
theorem C1_counterexample :
    (start_download_partition 32 true).getLast?.bind RangeSpec.e = some 32 ∧
      (start_download_partition 32 true).getLast?.bind RangeSpec.e ≠ some 31 := by
  constructor
  · rfl
  · decide

/-- C1 (amended): for every `totalSize > 0` with ranges accepted the
partition starts at byte 0, each RangeSpec starts one past its
predecessor's end, and the final RangeSpec's end equals `totalSize`
(not `totalSize - 1`). -/
theorem C1_theorem (cl : Nat) (h : 0 < cl) :
    (start_download_partition cl true).head?.map RangeSpec.s = some 0 ∧
      List.Chain' (fun a b : RangeSpec => a.e.map (· + 1) = some b.s)
        (start_download_partition cl true) ∧
      (start_download_partition cl true).getLast?.bind RangeSpec.e = some cl := by
  rw [start_download_partition_pos cl h]
  obtain ⟨k, hk⟩ : ∃ k, partition_block_number cl = k + 1 :=
    ⟨partition_block_number cl - 1, by have := partition_block_number_pos cl h; omega⟩
  refine ⟨?_, ?_, ?_⟩
  · rw [hk]
    obtain ⟨e, tl, htl⟩ := buildRanges_succ_cons (partition_block_size cl) cl k 0 0
    rw [htl]
    rfl
  · refine (List.chain'_map _).mpr ?_
    refine (buildRanges_chain_contig (partition_block_size cl) cl
      (partition_block_number cl) 0 0).imp (fun a b hab => ?_)
    simp [hab]
  · rw [List.getLast?_map]
    obtain ⟨p, hp, he⟩ := buildRanges_getLast? (partition_block_size cl) cl
      (partition_block_number cl) 0 0 (partition_block_number_pos cl h)
    rw [hp]
    simp [he]

/-- C1 witness: a 100-byte resource is covered from byte 0 up to end
offset 100. -/
theorem C1_witness :
    0 < 100 ∧
      (start_download_partition 100 true).head?.map RangeSpec.s = some 0 ∧
      (start_download_partition 100 true).getLast?.bind RangeSpec.e = some 100 :=
  ⟨by decide, (C1_theorem 100 (by decide)).1, (C1_theorem 100 (by decide)).2.2⟩

/-- C2 counterexample: `totalSize = 640 * 1024 * 1024` exceeds the
actual threshold `target_size = 32 * 10MiB = 320MiB`, so the code takes
the large-resource regime and produces 64 blocks, not the claimed 32
equal blocks. -/
theorem C2_counterexample :
    (start_download_partition (640 * 1024 * 1024) true).length = 64 ∧
      (start_download_partition (640 * 1024 * 1024) true).length ≠ 32 := by
  have h64 : (start_download_partition (640 * 1024 * 1024) true).length = 64 := by rfl
  exact ⟨h64, by rw [h64]; decide⟩

/-- C2 (amended): with ranges accepted and `totalSize > 0`, if
`totalSize ≤ 320MiB` the partition has exactly 32 blocks whose
non-final RangeSpecs each end at `start + floor(totalSize / 32)`;
otherwise the nominal block size is 10MiB and there are
`ceil(totalSize / 10MiB)` blocks; the final RangeSpec always ends at
`totalSize` (so 640MiB falls in the large regime, yielding 64
blocks). -/
theorem C2_theorem (cl : Nat) (h : 0 < cl) :
    (cl ≤ target_size →
        (start_download_partition cl true).length = 32 ∧
        ∀ sp ∈ (start_download_partition cl true).dropLast, sp.e = some (sp.s + cl / 32)) ∧
      (target_size < cl →
        (start_download_partition cl true).length =
          (cl + 10 * 1024 * 1024 - 1) / (10 * 1024 * 1024) ∧
        ∀ sp ∈ (start_download_partition cl true).dropLast,
          sp.e = some (sp.s + 10 * 1024 * 1024)) ∧
      (start_download_partition cl true).getLast?.bind RangeSpec.e = some cl := by
  have hlen : (start_download_partition cl true).length = partition_block_number cl := by
    rw [start_download_partition_pos cl h, List.length_map, buildRanges_length]
  have hdrop : ∀ sp ∈ (start_download_partition cl true).dropLast,
      sp.e = some (sp.s + partition_block_size cl) := by
    rw [start_download_partition_pos cl h, ← List.map_dropLast]
    intro sp hsp
    obtain ⟨t, ht, rfl⟩ := List.mem_map.mp hsp
    have := buildRanges_dropLast (partition_block_size cl) cl
      (partition_block_number cl) 0 0 t ht
    simp [this]
  refine ⟨?_, ?_, ?_⟩
  · intro hsmall
    have h1 : partition_block_number cl = 32 := by
      rw [partition_block_number, if_pos hsmall, block_number]
    have h2 : partition_block_size cl = cl / 32 := by
      rw [partition_block_size, if_pos hsmall, block_number]
    exact ⟨by rw [hlen, h1], fun sp hsp => (hdrop sp hsp).trans (by rw [h2])⟩
  · intro hlarge
    have h1 : partition_block_number cl = (cl + 10 * 1024 * 1024 - 1) / (10 * 1024 * 1024) := by
      rw [partition_block_number, if_neg (Nat.not_le.mpr hlarge)]
    have h2 : partition_block_size cl = 10 * 1024 * 1024 := by
      rw [partition_block_size, if_neg (Nat.not_le.mpr hlarge)]
    exact ⟨by rw [hlen, h1], fun sp hsp => (hdrop sp hsp).trans (by rw [h2])⟩
  · rw [start_download_partition_pos cl h, List.getLast?_map]
    obtain ⟨p, hp, he⟩ := buildRanges_getLast? (partition_block_size cl) cl
      (partition_block_number cl) 0 0 (partition_block_number_pos cl h)
    rw [hp]
    simp [he]

/-- C2 witness: a 64-byte resource sits in the small regime and is cut
into 32 blocks. -/
theorem C2_witness :
    0 < 64 ∧ 64 ≤ target_size ∧ (start_download_partition 64 true).length = 32 :=
  ⟨by decide, by decide, ((C2_theorem 64 (by decide)).1 (by decide)).1⟩

/-- C4 counterexample: with `retries_delay = 0` (the downloader's
default) and a jitter sample of 1, the code waits 0, not
`fixedDelay + jitter = 1`: request.py:116-119 applies
`wait_random(0, 2)` only when `retries_delay` is truthy. -/
theorem C4_counterexample : retry_wait 0 1 = 0 ∧ retry_wait 0 1 ≠ 0 + 1 := by decide

/-- C4 (amended): with `maxAttempts = retrys_count ≥ 1` the fetcher
performs at most `retrys_count` attempts; if every attempt fails it
performs exactly `retrys_count` and raises the terminal
`RequestException` (never the underlying transport or status error);
the inter-attempt wait is `fixedDelay + jitter` when `fixedDelay ≠ 0`
and a flat 0 (no jitter) when `fixedDelay = 0`. -/
theorem C4_theorem {α : Type} (rc : Nat) (h : 1 ≤ rc) (attempt : Nat → Except ReqError α) :
    (Request.request rc attempt).1 ≤ rc ∧
      ((∀ m, ∃ e, attempt m = Except.error e) →
        Request.request rc attempt = (rc, ReqOutcome.requestException)) ∧
      (∀ d j, 0 < d → retry_wait d j = d + j) ∧
      (∀ j, retry_wait 0 j = 0) := by
  have hnl : ¬ rc < 1 := by omega
  refine ⟨?_, ?_, ?_, ?_⟩
  · simp only [Request.request, if_neg hnl]
    exact retryFrom_count_le rc attempt rc 1
  · intro hfail
    have hall := retryFrom_all_fail rc attempt hfail rc 1 h (by omega)
    simp only [Request.request, if_neg hnl, hall]
  · intro d j hd
    rw [retry_wait, if_neg (by omega)]
  · intro j
    rfl

/-- C4 witness: two allotted attempts that both fail over the
transport end in the terminal `RequestException` after exactly two
attempts. -/
theorem C4_witness :
    (Request.request 2 (fun _ => (Except.error ReqError.transport : Except ReqError HttpResponse))).1 ≤ 2 ∧
      Request.request 2 (fun _ => (Except.error ReqError.transport : Except ReqError HttpResponse)) =
        (2, ReqOutcome.requestException) :=
  ⟨(C4_theorem 2 (by decide) _).1,
   (C4_theorem 2 (by decide) _).2.1 (fun m => ⟨ReqError.transport, rfl⟩)⟩

/-- C6: a status outside the (post-construction) allow-list raises
`RequestStateException` — a retryable failure, not a crash: the raw
exception never escapes `Request.request` when at least one attempt is
allotted, and a later in-budget successful attempt yields that
response; a status inside the allow-list is returned as a success. -/
theorem C6_theorem (ac : List Nat) (resp : HttpResponse) (rc : Nat) (h : 1 ≤ rc)
    (attempt : Nat → Except ReqError HttpResponse) :
    (resp.status ∉ post_init_allow_codes ac →
      request_validate (post_init_allow_codes ac) resp =
        Except.error (ReqError.state resp.status)) ∧
      (resp.status ∈ post_init_allow_codes ac →
        request_validate (post_init_allow_codes ac) resp = Except.ok resp) ∧
      (∀ e, (Request.request rc attempt).2 ≠ ReqOutcome.raw e) ∧
      (∀ (n : Nat) (a : HttpResponse), n + 1 ≤ rc →
        (∀ m, 1 ≤ m → m ≤ n → ∃ e, attempt m = Except.error e) →
        attempt (n + 1) = Except.ok a →
        (Request.request rc attempt).2 = ReqOutcome.ok a) := by
  have hnl : ¬ rc < 1 := by omega
  refine ⟨?_, ?_, ?_, ?_⟩
  · intro hout
    rw [request_validate, if_neg hout]
  · intro hin
    rw [request_validate, if_pos hin]
  · intro e
    simp only [Request.request, if_neg hnl]
    cases (retryFrom rc attempt 1 rc).2 with
    | ok a => simp
    | error u => simp
  · intro n a hn hfail hok
    simp only [Request.request, if_neg hnl]
    have hskip := retryFrom_skip_to_ok rc attempt n a hok hn rc 1 (by omega) (by omega)
      (fun m hm1 hm2 => hfail m hm1 hm2)
    rw [hskip]

/-- C6 witness: 503 is rejected then retried and the following 204 is
returned; 204 alone validates as a success. -/
theorem C6_witness :
    (503 : Nat) ∉ post_init_allow_codes [] ∧
      request_validate (post_init_allow_codes []) ⟨503⟩ =
        Except.error (ReqError.state 503) ∧
      request_validate (post_init_allow_codes []) ⟨204⟩ = Except.ok ⟨204⟩ ∧
      (Request.request 3 (fun m => if m = 1
          then Except.error (ReqError.state 503)
          else Except.ok (⟨204⟩ : HttpResponse))).2 = ReqOutcome.ok ⟨204⟩ := by
  refine ⟨by decide, (C6_theorem [] ⟨503⟩ 3 (by decide) (fun _ => Except.ok ⟨204⟩)).1 (by decide),
    (C6_theorem [] ⟨204⟩ 3 (by decide) (fun _ => Except.ok ⟨204⟩)).2.1 (by decide), ?_⟩
  refine (C6_theorem [] ⟨204⟩ 3 (by decide) _).2.2.2 1 ⟨204⟩ (by decide) ?_ rfl
  intro m hm1 hm2
  have hm : m = 1 := Nat.le_antisymm hm2 hm1
  subst hm
  exact ⟨ReqError.state 503, rfl⟩

/-- C3: if every fetch hands back exactly the bytes of the resource
lying in its RangeSpec's span, the orchestrator's gathered result,
sorted ascending by index as main.py:209 does, concatenates
byte-for-byte to the original resource — for every partition the code
produces. -/
theorem C3_theorem (r : List Nat) (b : Bool) (fetch : RangeSpec → List Nat)
    (hf : ∀ sp ∈ start_download_partition r.length b, fetch sp = spanBytes r sp) :
    List.Pairwise (fun x y : Segment => x.index ≤ y.index)
      (sortByIndex ((start_download_partition r.length b).map
        (fun sp => ⟨sp.index, fetch sp⟩))) ∧
      ((sortByIndex ((start_download_partition r.length b).map
        (fun sp => ⟨sp.index, fetch sp⟩))).map Segment.content).flatten = r := by
  have hmap : (start_download_partition r.length b).map
      (fun sp => (⟨sp.index, fetch sp⟩ : Segment)) =
      (start_download_partition r.length b).map (fun sp => ⟨sp.index, spanBytes r sp⟩) :=
    List.map_congr_left (fun sp hsp => by rw [hf sp hsp])
  have hchain : List.Chain' (fun x y : Segment => x.index < y.index)
      ((start_download_partition r.length b).map (fun sp => ⟨sp.index, spanBytes r sp⟩)) := by
    refine (List.chain'_map _).mpr ?_
    exact partition_chain_index r.length b
  have hsort : sortByIndex ((start_download_partition r.length b).map
      (fun sp => (⟨sp.index, spanBytes r sp⟩ : Segment))) =
      (start_download_partition r.length b).map (fun sp => ⟨sp.index, spanBytes r sp⟩) :=
    sortByIndex_of_chain _ hchain
  rw [hmap, hsort]
  have htrans : IsTrans Segment (fun x y : Segment => x.index < y.index) :=
    ⟨fun _ _ _ hab hbc => Nat.lt_trans hab hbc⟩
  refine ⟨List.Pairwise.imp (fun hxy => Nat.le_of_lt hxy)
    ((@List.chain'_iff_pairwise _ _ htrans _).mp hchain), ?_⟩
  rw [List.map_map]
  by_cases hb : b = true
  · subst hb
    by_cases hcl : r.length = 0
    · rw [List.length_eq_zero.mp hcl]
      rfl
    · rw [start_download_partition_pos r.length (Nat.pos_of_ne_zero hcl), List.map_map]
      have hfl := buildRanges_flatten r (partition_block_size r.length) r.length
        (Nat.le_succ _) (partition_block_number r.length) 0 0
        (partition_block_number_pos r.length (Nat.pos_of_ne_zero hcl))
      rw [show (Segment.content ∘ fun sp : RangeSpec => (⟨sp.index, spanBytes r sp⟩ : Segment)) ∘
            (fun t : Nat × Nat × Nat => (⟨t.1, t.2.1, some t.2.2⟩ : RangeSpec)) =
          fun t : Nat × Nat × Nat => (r.drop t.2.1).take (t.2.2 + 1 - t.2.1) from rfl]
      rw [hfl, List.drop_zero]
  · rw [Bool.not_eq_true] at hb
    subst hb
    rw [start_download_partition_noranges]
    simp [spanBytes]

/-- C3 witness: a 3-byte resource partitioned with ranges accepted is
reassembled exactly when each fetch returns its span's bytes. -/
theorem C3_witness :
    List.Pairwise (fun x y : Segment => x.index ≤ y.index)
      (sortByIndex ((start_download_partition (List.length [5, 6, 7]) true).map
        (fun sp => ⟨sp.index, spanBytes [5, 6, 7] sp⟩))) ∧
      ((sortByIndex ((start_download_partition (List.length [5, 6, 7]) true).map
        (fun sp => ⟨sp.index, spanBytes [5, 6, 7] sp⟩))).map Segment.content).flatten =
        [5, 6, 7] :=
  C3_theorem [5, 6, 7] true (spanBytes [5, 6, 7]) (fun _ _ => rfl)

end HsDl
